import Mathlib

/-!
Verification of the textedit repository's document/pane/tab state machine,
its theme manager and its file tree, against the natural-language
specification.  The core modules (Document, EditorPane, SplitContainer,
UndoModifiedTracker) are not shipped in the repository snapshot — only
their tests are — so those parts are modelled from the specification, as
noted in each definition's doc comment.  `theme_manager.py` and
`file_tree.py` are embedded directly from the source.
-/

/-- Helper: apply a function to the element at a given position of a list,
leaving the list unchanged when the position is out of range.  Used to model
in-place mutation of one pane inside the container's pane list. -/
def modifyAt (f : α → α) : Nat → List α → List α
  | _, [] => []
  | 0, a :: as => f a :: as
  | n + 1, a :: as => a :: modifyAt f n as

@[simp]
theorem modifyAt_nil (f : α → α) (n : Nat) : modifyAt f n [] = [] := by
  cases n <;> rfl

@[simp]
theorem modifyAt_cons_zero (f : α → α) (a : α) (as : List α) :
    modifyAt f 0 (a :: as) = f a :: as := rfl

@[simp]
theorem modifyAt_cons_succ (f : α → α) (n : Nat) (a : α) (as : List α) :
    modifyAt f (n + 1) (a :: as) = a :: modifyAt f n as := rfl

@[simp]
theorem modifyAt_length (f : α → α) (n : Nat) (l : List α) :
    (modifyAt f n l).length = l.length := by
  induction l generalizing n with
  | nil => simp
  | cons a as ih => cases n <;> simp [ih]

theorem modifyAt_get? (f : α → α) (n k : Nat) (l : List α) :
    (modifyAt f n l).get? k = if n = k then (l.get? k).map f else l.get? k := by
  induction l generalizing n k with
  | nil => simp
  | cons a as ih =>
    cases n with
    | zero => cases k <;> simp
    | succ m =>
      cases k with
      | zero => simp
      | succ j => simpa using ih m j

theorem sum_map_modifyAt (g : α → Nat) (f : α → α) (l : List α) (n : Nat)
    (h : n < l.length) :
    ((modifyAt f n l).map g).sum + g (l.get ⟨n, h⟩) =
      (l.map g).sum + g (f (l.get ⟨n, h⟩)) := by
  induction l generalizing n with
  | nil => simp at h
  | cons a as ih =>
    cases n with
    | zero => simp; omega
    | succ m =>
      have h' : m < as.length := by simpa using h
      have := ih m h'
      simp only [modifyAt_cons_succ, List.map_cons, List.sum_cons, List.get_cons_succ]
      omega

/-- Helper: a list with one element appended has no duplicates iff the element
is fresh and the rest has no duplicates. -/
theorem nodup_append_singleton {α : Type} (a : α) (l : List α) :
    (l ++ [a]).Nodup ↔ a ∉ l ∧ l.Nodup := by
  rw [(List.perm_append_singleton a l).nodup_iff, List.nodup_cons]

/-- Document: in-memory representation of one open file's content and
dirty/save state.  Modelled from the spec: attributes `content`,
`file_path`, `is_modified`.  The `id` field models Python object identity
(two Document objects are distinct even when their fields agree). -/
structure Document where
  id : Nat
  content : String
  file_path : Option String
  is_modified : Bool
deriving DecidableEq, Repr

/-- Document.create: Modelled from the spec: new Document with
`is_modified = false` and the given content and path. -/
def Document.create (i : Nat) (c : String) (fp : Option String) : Document :=
  ⟨i, c, fp, false⟩

/-- Pane (tab group): Modelled from the spec: an ordered sequence of
Documents (order is the tab order) together with the index of the active
Document. -/
structure Pane where
  documents : List Document
  activeIdx : Nat
deriving DecidableEq, Repr

/-- Pane.add_document: Modelled from the spec: appends the document; if it
is the first Document of the pane, it becomes active. -/
def Pane.add_document (p : Pane) (d : Document) : Pane :=
  ⟨p.documents ++ [d], if p.documents.isEmpty then 0 else p.activeIdx⟩

/-- Pane.insert_document: Modelled from the spec: inserts at the given
index, clamped to the valid range. -/
def Pane.insert_document (p : Pane) (i : Nat) (d : Document) : Pane :=
  ⟨p.documents.take i ++ [d] ++ p.documents.drop i, p.activeIdx⟩

/-- Pane.remove_document: Modelled from the spec: returns true and removes
the document when it is present (if the removed Document was active, the
neighbour at the same index becomes active, or the new last index when it
was last); returns false with no mutation when absent. -/
def Pane.remove_document (p : Pane) (d : Document) : Bool × Pane :=
  if d ∈ p.documents then
    let i := p.documents.indexOf d
    let docs := p.documents.erase d
    let newActive :=
      if p.activeIdx = i then min p.activeIdx (docs.length - 1)
      else if i < p.activeIdx then p.activeIdx - 1
      else p.activeIdx
    (true, ⟨docs, newActive⟩)
  else (false, p)

/-- Pane.get_document_at: Modelled from the spec: the Document at the given
index, or the not-found signal (none) for indices outside the valid range,
including negative indices. -/
def Pane.get_document_at (p : Pane) (i : Int) : Option Document :=
  if 0 ≤ i ∧ i < (p.documents.length : Int) then p.documents.get? i.toNat
  else none

/-- Pane.document_count: Modelled from the spec: the sequence length. -/
def Pane.document_count (p : Pane) : Nat := p.documents.length

/-- Pane.current_document: Modelled from the spec: the active Document, or
the empty signal when the pane holds none. -/
def Pane.current_document (p : Pane) : Option Document :=
  p.documents.get? p.activeIdx

/-- Pane.has_unsaved_changes: Modelled from the spec: true iff any owned
Document has `is_modified = true`. -/
def Pane.has_unsaved_changes (p : Pane) : Bool :=
  p.documents.any (fun d => d.is_modified)

/-- Side of a split request, per the spec ("left"/"right"). -/
inductive Side where
  | left
  | right
deriving DecidableEq, Repr

/-- SplitContainer: Modelled from the spec: an ordered list of Panes
(length 1 = unsplit, length 2 = split) and the index of the active Pane.
The `nextId` counter models Python object allocation: fresh Documents
created inside the container receive identities never used before. -/
structure SplitContainer where
  panes : List Pane
  activePane : Nat
  nextId : Nat
deriving DecidableEq, Repr

/-- Initial state: Modelled from the spec: one Pane holding one empty
Document. -/
def SplitContainer.initial : SplitContainer :=
  ⟨[⟨[⟨0, "", none, false⟩], 0⟩], 0, 1⟩

/-- all_documents: Modelled from the spec: flattened sequence of every
Document across all owned Panes, Pane order then intra-Pane order. -/
def SplitContainer.all_documents (s : SplitContainer) : List Document :=
  (s.panes.map Pane.documents).flatten

/-- Identities of all Documents owned by the container. -/
def SplitContainer.allIds (s : SplitContainer) : List Nat :=
  s.all_documents.map Document.id

/-- total_document_count: Modelled from the spec: total Document count
across all owned Panes. -/
def SplitContainer.total_document_count (s : SplitContainer) : Nat :=
  (s.panes.map (fun p => p.documents.length)).sum

/-- is_split: Modelled from the spec: the container is in state SPLIT iff
it owns two Panes. -/
def SplitContainer.is_split (s : SplitContainer) : Bool :=
  s.panes.length == 2

/-- add_document: Modelled from the spec: adds an externally created
Document to the active Pane.  The `nextId` bump records that the added
object's identity is now in use. -/
def SplitContainer.add_document (s : SplitContainer) (d : Document) : SplitContainer :=
  ⟨modifyAt (fun p => p.add_document d) s.activePane s.panes,
   s.activePane, max s.nextId (d.id + 1)⟩

/-- add_new_document: Modelled from the spec: constructs an empty Document
via `Document.create`, appends it to the active Pane and (per the
repository tests) makes it the pane's current document. -/
def SplitContainer.add_new_document (s : SplitContainer) : SplitContainer :=
  let d : Document := Document.create s.nextId "" none
  ⟨modifyAt (fun p => ⟨p.documents ++ [d], p.documents.length⟩) s.activePane s.panes,
   s.activePane, s.nextId + 1⟩

/-- Index of the Pane currently owning the given Document, if any. -/
def findOwnerIdx (d : Document) : List Pane → Option Nat
  | [] => none
  | p :: ps => if d ∈ p.documents then some 0 else (findOwnerIdx d ps).map (· + 1)

/-- create_split: Modelled from the spec: no-op when already SPLIT or when
the total Document count is below 2; otherwise removes the document from
its current Pane, seeds a new Pane with it on the requested side, and makes
the new Pane active. -/
def SplitContainer.create_split (s : SplitContainer) (d : Document) (side : Side) :
    SplitContainer :=
  if 2 ≤ s.panes.length then s
  else if s.total_document_count < 2 then s
  else
    match findOwnerIdx d s.panes with
    | none => s
    | some i =>
      let panes0 := modifyAt (fun p => (p.remove_document d).2) i s.panes
      let newPane : Pane := ⟨[d], 0⟩
      match side with
      | Side.left => ⟨newPane :: panes0, 0, s.nextId⟩
      | Side.right => ⟨panes0 ++ [newPane], panes0.length, s.nextId⟩

/-- merge_panes: Modelled from the spec: no-op unless SPLIT; moves every
Document of the second Pane into the first (first Pane's Documents first,
each sub-sequence keeping its order), destroys the emptied Pane and returns
to UNSPLIT. -/
def SplitContainer.merge_panes (s : SplitContainer) : SplitContainer :=
  match s.panes with
  | p :: q :: [] => ⟨[⟨p.documents ++ q.documents, p.activeIdx⟩], 0, s.nextId⟩
  | _ => s

/-- transfer_document: Modelled from the spec: removes the document from the
source Pane and adds it to the target Pane; no-op when the document is not
owned by the source Pane.  Panes are designated by their index in the
container. -/
def SplitContainer.transfer_document (s : SplitContainer) (d : Document)
    (src tgt : Nat) : SplitContainer :=
  match s.panes.get? src, s.panes.get? tgt with
  | some sp, some _ =>
    if d ∈ sp.documents then
      ⟨modifyAt (fun p => p.add_document d) tgt
        (modifyAt (fun p => (p.remove_document d).2) src s.panes),
       s.activePane, s.nextId⟩
    else s
  | _, _ => s

/-- swap_panes: Modelled from the spec: no-op unless SPLIT; reverses the two
Panes' order without altering either Pane, keeping the same Pane active. -/
def SplitContainer.swap_panes (s : SplitContainer) : SplitContainer :=
  match s.panes with
  | p :: q :: [] => ⟨[q, p], if s.activePane = 0 then 1 else 0, s.nextId⟩
  | _ => s

/-- remove_document (container level): Modelled from the spec: removes the
document from its owning Pane; a Pane left with zero Documents while SPLIT
is removed by its owner, never left dangling. -/
def SplitContainer.remove_document (s : SplitContainer) (d : Document) : SplitContainer :=
  match findOwnerIdx d s.panes with
  | none => s
  | some i =>
    let panes1 := modifyAt (fun p => (p.remove_document d).2) i s.panes
    match panes1.get? i with
    | some p =>
      if panes1.length = 2 ∧ p.documents.isEmpty then
        ⟨panes1.eraseIdx i, 0, s.nextId⟩
      else ⟨panes1, s.activePane, s.nextId⟩
    | none => ⟨panes1, s.activePane, s.nextId⟩

/-- has_unsaved_changes: Modelled from the spec: true iff any owned Pane
reports unsaved changes. -/
def SplitContainer.has_unsaved_changes (s : SplitContainer) : Bool :=
  s.panes.any Pane.has_unsaved_changes

/-- Theme enumeration, embedded from `src/editor/theme_manager.py`: the
`Theme` enum declares exactly the members DARK and LIGHT. -/
inductive Theme where
  | DARK
  | LIGHT
deriving DecidableEq, Repr

/-- Member lookup on the `Theme` enum of `src/editor/theme_manager.py`:
`Theme.X` succeeds only for the declared members DARK and LIGHT; any other
attribute access raises AttributeError, modelled as `none`. -/
def Theme.fromName (n : String) : Option Theme :=
  if n = "DARK" then some Theme.DARK
  else if n = "LIGHT" then some Theme.LIGHT
  else none

/-- Attributes defined in the body of class `ThemeManager` in
`src/editor/theme_manager.py` (lines 514-545): the class attributes
`_instance` and `_current_theme`, and the methods `__new__`,
`current_theme`, `apply_theme` and `toggle_theme`.  Attribute access on a
ThemeManager instance succeeds exactly for these names. -/
def ThemeManager.attrs : List String :=
  ["_instance", "_current_theme", "__new__", "current_theme",
   "apply_theme", "toggle_theme"]

/-- Attribute lookup on a ThemeManager instance, embedded from the class
body of `src/editor/theme_manager.py`; names outside `ThemeManager.attrs`
raise AttributeError, modelled as `false`. -/
def ThemeManager.hasAttr (a : String) : Bool :=
  ThemeManager.attrs.contains a

/-- ThemeManager.apply_theme, embedded from `src/editor/theme_manager.py`
lines 529-537: sets `_current_theme` to the given theme (the stylesheet
side effect on the QApplication is external to the state). -/
def ThemeManager.apply_theme (_s : Theme) (t : Theme) : Theme := t

/-- ThemeManager.toggle_theme, embedded from `src/editor/theme_manager.py`
lines 539-544: applies LIGHT when the current theme is DARK, else applies
DARK. -/
def ThemeManager.toggle_theme (s : Theme) : Theme :=
  if s = Theme.DARK then ThemeManager.apply_theme s Theme.LIGHT
  else ThemeManager.apply_theme s Theme.DARK

/-- One public mutation of the ThemeManager state. -/
inductive ThemeOp where
  | applyTheme (t : Theme)
  | toggleTheme
deriving DecidableEq, Repr

/-- Run a sequence of apply_theme/toggle_theme calls on the ThemeManager
state. -/
def runThemeOps : Theme → List ThemeOp → Theme
  | s, [] => s
  | s, ThemeOp.applyTheme t :: ops => runThemeOps (ThemeManager.apply_theme s t) ops
  | s, ThemeOp.toggleTheme :: ops => runThemeOps (ThemeManager.toggle_theme s) ops

/-- Abstract file system as seen by `FileTree.open_folder` in
`src/editor/file_tree.py`: existence and directory tests, path resolution
and the user's home directory. -/
structure FileSystem where
  pathExists : String → Bool
  isDir : String → Bool
  resolve : String → String
  homeDir : String

/-- Observable FileTree state, embedded from `src/editor/file_tree.py`:
`_root_path`, the file-system model's root path, and whether the
close-folder action is enabled. -/
structure FileTree where
  root_path : Option String
  model_root : String
  close_action_enabled : Bool
deriving DecidableEq, Repr

/-- FileTree.open_folder, embedded from `src/editor/file_tree.py` lines
238-248: returns false without mutation when the path does not exist or is
not a directory; otherwise stores the resolved path as `_root_path`, points
the model at it, enables the close action and returns true. -/
def FileTree.open_folder (fs : FileSystem) (t : FileTree) (folder_path : String) :
    Bool × FileTree :=
  if !(fs.pathExists folder_path) || !(fs.isDir folder_path) then (false, t)
  else
    let rp := fs.resolve folder_path
    (true, ⟨some rp, rp, true⟩)

/-- FileTree.close_folder, embedded from `src/editor/file_tree.py` lines
250-256: clears `_root_path`, points the model at the home directory and
disables the close action. -/
def FileTree.close_folder (fs : FileSystem) (_t : FileTree) : FileTree :=
  ⟨none, fs.homeDir, false⟩

/-- A Document bound to an editing surface, together with the surface's
undo-stack state.  Modelled from the spec (UndoModifiedTracker, missing
from the snapshot): `undoPos` is the current undo-stack position,
`undoDepth` the stack depth, `cleanPos` the clean-baseline position.  The
model tracks positions and the modified flag; content evolution under
undo/redo is external to it. -/
structure BoundDocument where
  doc : Document
  undoPos : Nat
  undoDepth : Nat
  cleanPos : Nat
deriving DecidableEq, Repr

/-- Whether the surface is at the undo-stack's clean baseline position.
Modelled from the spec: stack-position equality. -/
def BoundDocument.at_clean_position (b : BoundDocument) : Bool :=
  b.undoPos == b.cleanPos

/-- Reconciliation run on every content_changed event.  Modelled from the
spec: the tracker sets `Document.is_modified = NOT at_clean_position`. -/
def BoundDocument.reconcile (b : BoundDocument) : BoundDocument :=
  ⟨⟨b.doc.id, b.doc.content, b.doc.file_path, !b.at_clean_position⟩,
   b.undoPos, b.undoDepth, b.cleanPos⟩

/-- A mutating edit on the surface.  Modelled from the spec: pushes a new
undo step (discarding any redo history) and fires content_changed, which
runs the reconciliation. -/
def BoundDocument.insertText (b : BoundDocument) : BoundDocument :=
  BoundDocument.reconcile ⟨b.doc, b.undoPos + 1, b.undoPos + 1, b.cleanPos⟩

/-- Undo on the surface.  Modelled from the spec: steps the undo position
back when possible and fires content_changed; with no undo history the
surface does not change and no event fires. -/
def BoundDocument.undo (b : BoundDocument) : BoundDocument :=
  if b.undoPos = 0 then b
  else BoundDocument.reconcile ⟨b.doc, b.undoPos - 1, b.undoDepth, b.cleanPos⟩

/-- Redo on the surface.  Modelled from the spec: steps the undo position
forward when redo history exists and fires content_changed; otherwise the
surface does not change and no event fires. -/
def BoundDocument.redo (b : BoundDocument) : BoundDocument :=
  if b.undoPos < b.undoDepth then
    BoundDocument.reconcile ⟨b.doc, b.undoPos + 1, b.undoDepth, b.cleanPos⟩
  else b

/-- mark_saved on a bound Document.  Modelled from the spec: moves the
clean baseline forward to the current undo-stack position and clears
`is_modified`, regardless of undo history. -/
def BoundDocument.mark_saved (b : BoundDocument) : BoundDocument :=
  ⟨⟨b.doc.id, b.doc.content, b.doc.file_path, false⟩,
   b.undoPos, b.undoDepth, b.undoPos⟩

/-- A fresh Document just bound to a surface with no undo history.
Modelled from the spec: the state is clean. -/
def BoundDocument.fresh : BoundDocument :=
  ⟨Document.create 0 "" none, 0, 0, 0⟩

/-- C1: the claim states that ThemeManager exposes
`get_line_number_colors()` for every currently active theme.  The class
body of `src/editor/theme_manager.py` defines no such method, and the
`Theme` enum lacks the members AQUAMARINE and MIDNIGHT_BLUE that the
repository's own tests (test_tabs.py, TestSplitLineNumberColors) apply it
to: both accesses raise AttributeError.  This theorem evaluates the
embedded attribute tables at the failing inputs. -/
theorem themeManager_lacks_get_line_number_colors :
    ThemeManager.hasAttr "get_line_number_colors" = false ∧
    Theme.fromName "AQUAMARINE" = none ∧
    Theme.fromName "MIDNIGHT_BLUE" = none := by
  refine ⟨by decide, ?_, ?_⟩ <;> decide

/-- C9: toggling the theme twice restores the original theme, and after any
sequence of apply_theme/toggle_theme calls the current theme is exactly
DARK or LIGHT (the only members of the source's Theme enum). -/
theorem toggle_theme_involution (t : Theme) (ops : List ThemeOp) :
    ThemeManager.toggle_theme (ThemeManager.toggle_theme t) = t ∧
    (runThemeOps t ops = Theme.DARK ∨ runThemeOps t ops = Theme.LIGHT) := by
  constructor
  · cases t <;> rfl
  · cases runThemeOps t ops
    · exact Or.inl rfl
    · exact Or.inr rfl

/-- C10: open_folder on a path that does not exist or is not a directory
returns false and leaves the state (in particular root_path) unchanged; on
an existing directory it returns true and sets root_path to the resolved
path; close_folder always resets root_path to none. -/
theorem open_folder_spec (fs : FileSystem) (t : FileTree) (p : String) :
    ((fs.pathExists p = false ∨ fs.isDir p = false) →
      FileTree.open_folder fs t p = (false, t)) ∧
    (fs.pathExists p = true → fs.isDir p = true →
      FileTree.open_folder fs t p =
        (true, ⟨some (fs.resolve p), fs.resolve p, true⟩)) ∧
    (∀ t2 : FileTree, (FileTree.close_folder fs t2).root_path = none) := by
  refine ⟨?_, ?_, fun t2 => rfl⟩
  · intro h
    unfold FileTree.open_folder
    rcases h with h | h <;> simp [h]
  · intro h1 h2
    unfold FileTree.open_folder
    simp [h1, h2]

/-- Fixture for the open_folder witness: a file system where no path
exists. -/
def fsNone : FileSystem := ⟨fun _ => false, fun _ => false, id, "/home"⟩

/-- Fixture for the open_folder witness: a file system where every path is
an existing directory resolving to itself. -/
def fsAll : FileSystem := ⟨fun _ => true, fun _ => true, id, "/home"⟩

/-- Fixture for the open_folder witness: a fresh FileTree with no folder
open. -/
def tree0 : FileTree := ⟨none, "", false⟩

/-- Witness for C10 at concrete inputs. -/
theorem open_folder_spec_witness :
    FileTree.open_folder fsNone tree0 "/missing" = (false, tree0) ∧
    FileTree.open_folder fsAll tree0 "/d" = (true, ⟨some "/d", "/d", true⟩) ∧
    (FileTree.close_folder fsAll tree0).root_path = none :=
  ⟨(open_folder_spec fsNone tree0 "/missing").1 (Or.inl rfl),
   (open_folder_spec fsAll tree0 "/d").2.1 rfl rfl,
   (open_folder_spec fsAll tree0 "/d").2.2 tree0⟩

/-- C7: get_document_at returns the not-found signal for every index
outside the valid range, including every negative index, and the Document
at the given position for every index inside the range. -/
theorem get_document_at_spec (p : Pane) (i : Int) :
    ((i < 0 ∨ (p.document_count : Int) ≤ i) → p.get_document_at i = none) ∧
    (0 ≤ i → i < (p.document_count : Int) →
      ∃ h : i.toNat < p.documents.length,
        p.get_document_at i = some (p.documents.get ⟨i.toNat, h⟩)) := by
  constructor
  · intro h
    unfold Pane.get_document_at
    rw [if_neg]
    unfold Pane.document_count at h
    rcases h with h | h
    · rintro ⟨h0, -⟩; omega
    · rintro ⟨-, h1⟩; omega
  · intro h0 h1
    unfold Pane.document_count at h1
    have hn : i.toNat < p.documents.length := by omega
    refine ⟨hn, ?_⟩
    unfold Pane.get_document_at
    rw [if_pos ⟨h0, h1⟩]
    exact List.get?_eq_get hn

/-- Fixture for the get_document_at witness: a pane holding two concrete
documents. -/
def wPane : Pane := ⟨[Document.create 0 "a" none, Document.create 1 "b" none], 0⟩

/-- Witness for C7 at concrete inputs: a negative index, a too-large index,
and an in-range index. -/
theorem get_document_at_spec_witness :
    wPane.get_document_at (-1) = none ∧
    wPane.get_document_at 5 = none ∧
    ∃ h : (1 : Int).toNat < wPane.documents.length,
      wPane.get_document_at 1 = some (wPane.documents.get ⟨(1 : Int).toNat, h⟩) :=
  ⟨(get_document_at_spec wPane (-1)).1 (Or.inl (by decide)),
   (get_document_at_spec wPane 5).1 (Or.inr (by decide)),
   (get_document_at_spec wPane 1).2 (by decide) (by decide)⟩

/-- C5: create_split is a no-op leaving the state completely unchanged
whenever the total document count is below 2, and likewise whenever the
container is already split. -/
theorem create_split_noop (s : SplitContainer) (d : Document) (side : Side) :
    (s.total_document_count < 2 → s.create_split d side = s) ∧
    (s.is_split = true → s.create_split d side = s) := by
  constructor
  · intro h
    unfold SplitContainer.create_split
    by_cases h2 : 2 ≤ s.panes.length
    · rw [if_pos h2]
    · rw [if_neg h2, if_pos h]
  · intro h
    unfold SplitContainer.create_split
    have h2 : 2 ≤ s.panes.length := by
      have : s.panes.length = 2 := by simpa [SplitContainer.is_split] using h
      omega
    rw [if_pos h2]

/-- Fixture for the create_split witness: a split container with one
document in each pane. -/
def wSplitState : SplitContainer :=
  ⟨[⟨[Document.create 0 "" none], 0⟩, ⟨[Document.create 1 "" none], 0⟩], 0, 2⟩

/-- Witness for C5 at concrete inputs: the initial single-document state
and an already-split state. -/
theorem create_split_noop_witness :
    SplitContainer.initial.create_split (Document.create 0 "" none) Side.right =
      SplitContainer.initial ∧
    wSplitState.create_split (Document.create 0 "" none) Side.left = wSplitState :=
  ⟨(create_split_noop SplitContainer.initial (Document.create 0 "" none) Side.right).1
      (by decide),
   (create_split_noop wSplitState (Document.create 0 "" none) Side.left).2 (by decide)⟩

/-- C4: after each content_changed event the reconciliation sets
`is_modified` to the negation of the surface's at-clean-position boolean,
and the concrete fresh-document scenario holds: insert makes it true, undo
false, redo true again, and after mark_saved an insert followed by one undo
returns it to false. -/
theorem undo_modified_reconciliation (b : BoundDocument) :
    (b.insertText.doc.is_modified = !b.insertText.at_clean_position ∧
     (b.undoPos ≠ 0 → b.undo.doc.is_modified = !b.undo.at_clean_position) ∧
     (b.undoPos < b.undoDepth →
       b.redo.doc.is_modified = !b.redo.at_clean_position)) ∧
    (BoundDocument.fresh.insertText.doc.is_modified = true ∧
     BoundDocument.fresh.insertText.undo.doc.is_modified = false ∧
     BoundDocument.fresh.insertText.undo.redo.doc.is_modified = true ∧
     BoundDocument.fresh.insertText.mark_saved.insertText.undo.doc.is_modified
       = false) := by
  refine ⟨⟨?_, ?_, ?_⟩, by decide, by decide, by decide, by decide⟩
  · rfl
  · intro h
    unfold BoundDocument.undo
    rw [if_neg h]
    rfl
  · intro h
    unfold BoundDocument.redo
    rw [if_pos h]
    rfl

/-- Witness for C4 at concrete inputs: a state with undo history for the
undo clause and a state with redo history for the redo clause. -/
theorem undo_modified_reconciliation_witness :
    (BoundDocument.fresh.insertText.undo.doc.is_modified =
      !BoundDocument.fresh.insertText.undo.at_clean_position) ∧
    (BoundDocument.fresh.insertText.undo.redo.doc.is_modified =
      !BoundDocument.fresh.insertText.undo.redo.at_clean_position) :=
  ⟨(undo_modified_reconciliation BoundDocument.fresh.insertText).1.2.1 (by decide),
   (undo_modified_reconciliation BoundDocument.fresh.insertText.undo).1.2.2 (by decide)⟩

/-- C6: while split, swap_panes applied twice restores the original pane
order, and a single swap_panes reverses the two panes' order while leaving
each Pane (hence its Document membership and active Document) untouched;
when the container is not split, swap_panes is a no-op. -/
theorem swap_panes_involution (s : SplitContainer) :
    (s.is_split = true → s.activePane < 2 →
      s.swap_panes.swap_panes = s ∧ s.swap_panes.panes = s.panes.reverse) ∧
    (s.is_split = false → s.swap_panes = s) := by
  obtain ⟨panes, a, n⟩ := s
  constructor
  · intro hs ha
    have hl : panes.length = 2 := by simpa [SplitContainer.is_split] using hs
    obtain ⟨p, q, rfl⟩ := List.length_eq_two.mp hl
    simp only at ha
    have h01 : a = 0 ∨ a = 1 := by omega
    rcases h01 with rfl | rfl <;> exact ⟨rfl, rfl⟩
  · intro hs
    have hl : panes.length ≠ 2 := by simpa [SplitContainer.is_split] using hs
    rcases panes with - | ⟨p, - | ⟨q, - | ⟨r, rest⟩⟩⟩
    · rfl
    · rfl
    · exact absurd rfl hl
    · rfl

/-- Witness for C6 at concrete inputs: a split two-pane container and the
unsplit initial container. -/
theorem swap_panes_involution_witness :
    (wSplitState.swap_panes.swap_panes = wSplitState ∧
     wSplitState.swap_panes.panes = wSplitState.panes.reverse) ∧
    SplitContainer.initial.swap_panes = SplitContainer.initial :=
  ⟨(swap_panes_involution wSplitState).1 (by decide) (by decide),
   (swap_panes_involution SplitContainer.initial).2 (by decide)⟩

/-- C2: from any unsplit state with at least two documents, splitting off
an owned document to either side and then merging yields all_documents as
a permutation of (hence equal as a set to) the pre-split documents; each
Document record, including its is_modified flag, is carried unchanged, and
none is duplicated or lost. -/
theorem split_merge_round_trip (s : SplitContainer) (d : Document) (side : Side)
    (hun : s.panes.length = 1) (htot : 2 ≤ s.total_document_count)
    (hd : d ∈ s.all_documents) :
    List.Perm ((s.create_split d side).merge_panes).all_documents
      s.all_documents ∧
    ∀ x : Document,
      x ∈ ((s.create_split d side).merge_panes).all_documents ↔
        x ∈ s.all_documents := by
  obtain ⟨panes, a, n⟩ := s
  obtain ⟨p, rfl⟩ := List.length_eq_one.mp hun
  have hdp : d ∈ p.documents := by
    simpa [SplitContainer.all_documents] using hd
  have hperm :
      List.Perm ((SplitContainer.create_split ⟨[p], a, n⟩ d side).merge_panes).all_documents
        (SplitContainer.all_documents ⟨[p], a, n⟩) := by
    have hguard : ¬ 2 ≤ ([p] : List Pane).length := by simp
    have hguard2 : ¬ SplitContainer.total_document_count ⟨[p], a, n⟩ < 2 := by omega
    unfold SplitContainer.create_split
    rw [if_neg hguard, if_neg hguard2]
    have hfind : findOwnerIdx d [p] = some 0 := by simp [findOwnerIdx, hdp]
    rw [hfind]
    simp only [modifyAt_cons_zero]
    rw [Pane.remove_document, if_pos hdp]
    cases side with
    | left =>
      simp only [SplitContainer.merge_panes, SplitContainer.all_documents,
        List.map_cons, List.map_nil, List.flatten_cons, List.flatten_nil,
        List.append_nil, List.singleton_append]
      exact (List.perm_cons_erase hdp).symm
    | right =>
      simp only [List.singleton_append, SplitContainer.merge_panes,
        SplitContainer.all_documents, List.map_cons, List.map_nil,
        List.flatten_cons, List.flatten_nil, List.append_nil]
      exact (List.perm_append_singleton d _).trans (List.perm_cons_erase hdp).symm
  exact ⟨hperm, fun x => hperm.mem_iff⟩

/-- Fixture for the split/merge witness: an unsplit container holding two
documents, the second one modified. -/
def wRound : SplitContainer :=
  ⟨[⟨[Document.create 0 "a" none, ⟨1, "b", none, true⟩], 0⟩], 0, 2⟩

/-- Witness for C2 at concrete inputs: splitting the modified document to
the right and merging back. -/
theorem split_merge_round_trip_witness :
    List.Perm ((wRound.create_split ⟨1, "b", none, true⟩ Side.right).merge_panes).all_documents
      wRound.all_documents :=
  (split_merge_round_trip wRound ⟨1, "b", none, true⟩ Side.right rfl
    (by decide) (by decide)).1

/-- C8: when d is owned by the source pane, transfer_document leaves d
absent from the source pane and present in the target pane and keeps the
container's total document count unchanged, so d is owned by exactly one of
the two panes afterwards; when d is not owned by the source pane the
operation is a complete no-op, so d is not added to the target pane. -/
theorem transfer_document_atomic (s : SplitContainer) (d : Document) (i j : Nat)
    (hij : i ≠ j) (pi0 pj0 : Pane)
    (hi : s.panes.get? i = some pi0) (hj : s.panes.get? j = some pj0) :
    (d ∈ pi0.documents → pi0.documents.Nodup →
      ∃ pi1 pj1 : Pane,
        (s.transfer_document d i j).panes.get? i = some pi1 ∧
        (s.transfer_document d i j).panes.get? j = some pj1 ∧
        d ∉ pi1.documents ∧ d ∈ pj1.documents ∧
        (s.transfer_document d i j).total_document_count =
          s.total_document_count) ∧
    (d ∉ pi0.documents → s.transfer_document d i j = s) := by
  constructor
  · intro hd hnd
    have htd : s.transfer_document d i j =
        ⟨modifyAt (fun p => p.add_document d) j
          (modifyAt (fun p => (p.remove_document d).2) i s.panes),
         s.activePane, s.nextId⟩ := by
      unfold SplitContainer.transfer_document
      rw [hi, hj]
      simp only [if_pos hd]
    have hrm : (pi0.remove_document d).2 = ⟨pi0.documents.erase d,
        if pi0.activeIdx = pi0.documents.indexOf d then
          min pi0.activeIdx ((pi0.documents.erase d).length - 1)
        else if pi0.documents.indexOf d < pi0.activeIdx then pi0.activeIdx - 1
        else pi0.activeIdx⟩ := by
      rw [Pane.remove_document, if_pos hd]
    obtain ⟨h1, hgi⟩ := List.get?_eq_some.mp hi
    obtain ⟨h2, hgj⟩ := List.get?_eq_some.mp hj
    have hL1i : (modifyAt (fun p => (p.remove_document d).2) i s.panes).get? i =
        some (pi0.remove_document d).2 := by
      rw [modifyAt_get? _ i i, if_pos rfl, hi]
      rfl
    have hL1j : (modifyAt (fun p => (p.remove_document d).2) i s.panes).get? j =
        some pj0 := by
      rw [modifyAt_get? _ i j, if_neg hij]
      exact hj
    have hL2i : (s.transfer_document d i j).panes.get? i =
        some (pi0.remove_document d).2 := by
      rw [htd]
      show (modifyAt (fun p => p.add_document d) j
        (modifyAt (fun p => (p.remove_document d).2) i s.panes)).get? i =
        some (pi0.remove_document d).2
      rw [modifyAt_get? _ j i, if_neg (fun h => hij h.symm)]
      exact hL1i
    have hL2j : (s.transfer_document d i j).panes.get? j =
        some (pj0.add_document d) := by
      rw [htd]
      show (modifyAt (fun p => p.add_document d) j
        (modifyAt (fun p => (p.remove_document d).2) i s.panes)).get? j =
        some (pj0.add_document d)
      rw [modifyAt_get? _ j j, if_pos rfl, hL1j]
      rfl
    refine ⟨(pi0.remove_document d).2, pj0.add_document d, hL2i, hL2j, ?_, ?_, ?_⟩
    · rw [hrm]
      exact hnd.not_mem_erase
    · simp [Pane.add_document]
    · have h2' : j < (modifyAt (fun p => (p.remove_document d).2) i s.panes).length := by
        rw [modifyAt_length]
        exact h2
      have hL1get : (modifyAt (fun p => (p.remove_document d).2) i s.panes).get ⟨j, h2'⟩
          = pj0 := by
        have := List.get?_eq_get h2'
        rw [hL1j] at this
        exact (Option.some_injective _ this).symm
      have E1 := sum_map_modifyAt (fun p => p.documents.length)
        (fun p => (p.remove_document d).2) s.panes i h1
      have E2 := sum_map_modifyAt (fun p => p.documents.length)
        (fun p => p.add_document d)
        (modifyAt (fun p => (p.remove_document d).2) i s.panes) j h2'
      rw [hgi] at E1
      rw [hL1get] at E2
      have hlen1 : ((pi0.remove_document d).2).documents.length =
          pi0.documents.length - 1 := by
        rw [hrm]
        exact List.length_erase_of_mem hd
      have hlen2 : (pi0.add_document d).documents.length = pi0.documents.length + 1 := by
        simp [Pane.add_document]
      have hpos : 0 < pi0.documents.length := List.length_pos_of_mem hd
      have hlen3 : (pj0.add_document d).documents.length = pj0.documents.length + 1 := by
        simp [Pane.add_document]
      have htot2 : (s.transfer_document d i j).total_document_count =
          (List.map (fun p => p.documents.length)
            (modifyAt (fun p => p.add_document d) j
              (modifyAt (fun p => (p.remove_document d).2) i s.panes))).sum := by
        rw [htd]
        rfl
      rw [htot2]
      unfold SplitContainer.total_document_count
      simp only [hlen1] at E1
      simp only [hlen3] at E2
      omega
  · intro hnotd
    unfold SplitContainer.transfer_document
    rw [hi, hj]
    simp only [if_neg hnotd]

/-- Fixture for the transfer witness: source pane holding two documents. -/
def wTPaneA : Pane := ⟨[Document.create 0 "a" none, Document.create 1 "b" none], 0⟩

/-- Fixture for the transfer witness: target pane holding one document. -/
def wTPaneB : Pane := ⟨[Document.create 2 "c" none], 0⟩

/-- Fixture for the transfer witness: a split container over the two
fixture panes. -/
def wTransferState : SplitContainer := ⟨[wTPaneA, wTPaneB], 0, 3⟩

/-- Witness for C8 at concrete inputs: transferring an owned document
between the two panes, and the no-op on an unowned document. -/
theorem transfer_document_atomic_witness :
    (∃ pi1 pj1 : Pane,
      (wTransferState.transfer_document (Document.create 1 "b" none) 0 1).panes.get? 0
        = some pi1 ∧
      (wTransferState.transfer_document (Document.create 1 "b" none) 0 1).panes.get? 1
        = some pj1 ∧
      Document.create 1 "b" none ∉ pi1.documents ∧
      Document.create 1 "b" none ∈ pj1.documents ∧
      (wTransferState.transfer_document (Document.create 1 "b" none) 0 1).total_document_count
        = wTransferState.total_document_count) ∧
    wTransferState.transfer_document (Document.create 5 "x" none) 0 1 = wTransferState :=
  ⟨(transfer_document_atomic wTransferState (Document.create 1 "b" none) 0 1
      (by decide) wTPaneA wTPaneB rfl rfl).1 (by decide) (by decide),
   (transfer_document_atomic wTransferState (Document.create 5 "x" none) 0 1
      (by decide) wTPaneA wTPaneB rfl rfl).2 (by decide)⟩

/-- Helper: modifying one list element by appending a fixed item permutes
the flattened image by consing that item. -/
theorem flatten_modifyAt_append (g : α → List β) (f : α → α) (y : β) :
    ∀ (l : List α) (i : Nat) (hi : i < l.length),
      g (f (l.get ⟨i, hi⟩)) = g (l.get ⟨i, hi⟩) ++ [y] →
      List.Perm ((modifyAt f i l).map g).flatten (y :: (l.map g).flatten) := by
  intro l
  induction l with
  | nil => intro i hi; simp at hi
  | cons a as ih =>
    intro i hi hf
    cases i with
    | zero =>
      have hf0 : g (f a) = g a ++ [y] := hf
      simp only [modifyAt_cons_zero, List.map_cons, List.flatten_cons, hf0,
        List.append_assoc, List.singleton_append]
      exact List.perm_middle
    | succ m =>
      have hm : m < as.length := by simpa using hi
      have hf1 : g (f (as.get ⟨m, hm⟩)) = g (as.get ⟨m, hm⟩) ++ [y] := hf
      simp only [modifyAt_cons_succ, List.map_cons, List.flatten_cons]
      exact ((ih m hm hf1).append_left (g a)).trans List.perm_middle

/-- Helper: modifying one list element by erasing an item it contains
permutes the flattened image by removing one copy of that item. -/
theorem flatten_modifyAt_erase [DecidableEq β] (g : α → List β) (f : α → α) (y : β) :
    ∀ (l : List α) (i : Nat) (hi : i < l.length),
      g (f (l.get ⟨i, hi⟩)) = (g (l.get ⟨i, hi⟩)).erase y →
      y ∈ g (l.get ⟨i, hi⟩) →
      List.Perm (y :: ((modifyAt f i l).map g).flatten) (l.map g).flatten := by
  intro l
  induction l with
  | nil => intro i hi; simp at hi
  | cons a as ih =>
    intro i hi hf hy
    cases i with
    | zero =>
      have hy0 : y ∈ g a := hy
      have hf0 : g (f a) = (g a).erase y := hf
      simp only [modifyAt_cons_zero, List.map_cons, List.flatten_cons, hf0,
        ← List.cons_append]
      exact ((List.perm_cons_erase hy0).symm).append_right _
    | succ m =>
      have hm : m < as.length := by simpa using hi
      have hy1 : y ∈ g (as.get ⟨m, hm⟩) := hy
      have hf1 : g (f (as.get ⟨m, hm⟩)) = (g (as.get ⟨m, hm⟩)).erase y := hf
      simp only [modifyAt_cons_succ, List.map_cons, List.flatten_cons]
      exact List.perm_middle.symm.trans ((ih m hm hf1 hy1).append_left (g a))

/-- Well-formedness invariant of a SplitContainer: one or two panes, a
valid active-pane index, no document owned twice anywhere, and every owned
identity below the allocation counter. -/
def WF (s : SplitContainer) : Prop :=
  (s.panes.length = 1 ∨ s.panes.length = 2) ∧
  s.activePane < s.panes.length ∧
  s.allIds.Nodup ∧
  ∀ k ∈ s.allIds, k < s.nextId

theorem all_documents_one (p : Pane) (a n : Nat) :
    SplitContainer.all_documents ⟨[p], a, n⟩ = p.documents := by
  simp [SplitContainer.all_documents]

theorem all_documents_two (p q : Pane) (a n : Nat) :
    SplitContainer.all_documents ⟨[p, q], a, n⟩ = p.documents ++ q.documents := by
  simp [SplitContainer.all_documents]

theorem allIds_one (p : Pane) (a n : Nat) :
    SplitContainer.allIds ⟨[p], a, n⟩ = p.documents.map Document.id := by
  rw [SplitContainer.allIds, all_documents_one]

theorem allIds_two (p q : Pane) (a n : Nat) :
    SplitContainer.allIds ⟨[p, q], a, n⟩ =
      (p.documents ++ q.documents).map Document.id := by
  rw [SplitContainer.allIds, all_documents_two]

theorem all_documents_add_perm (s : SplitContainer) (d : Document)
    (h : s.activePane < s.panes.length) :
    List.Perm (s.add_document d).all_documents (d :: s.all_documents) :=
  flatten_modifyAt_append Pane.documents (fun p => p.add_document d) d
    s.panes s.activePane h rfl

theorem all_documents_add_new_perm (s : SplitContainer)
    (h : s.activePane < s.panes.length) :
    List.Perm s.add_new_document.all_documents
      (Document.create s.nextId "" none :: s.all_documents) :=
  flatten_modifyAt_append Pane.documents
    (fun p => ⟨p.documents ++ [Document.create s.nextId "" none], p.documents.length⟩)
    (Document.create s.nextId "" none) s.panes s.activePane h rfl

theorem WF_add (s : SplitContainer) (d : Document) (h : WF s)
    (hd : d.id ∉ s.allIds) : WF (s.add_document d) := by
  obtain ⟨hlen, hact, hnd, hb⟩ := h
  have hperm : List.Perm (s.add_document d).allIds (d.id :: s.allIds) :=
    (all_documents_add_perm s d hact).map Document.id
  refine ⟨?_, ?_, ?_, ?_⟩
  · show (modifyAt _ s.activePane s.panes).length = 1 ∨
      (modifyAt _ s.activePane s.panes).length = 2
    rw [modifyAt_length]
    exact hlen
  · show s.activePane < (modifyAt _ s.activePane s.panes).length
    rw [modifyAt_length]
    exact hact
  · exact hperm.nodup_iff.mpr (List.nodup_cons.mpr ⟨hd, hnd⟩)
  · intro k hk
    show k < max s.nextId (d.id + 1)
    rcases List.mem_cons.mp (hperm.subset hk) with rfl | hk2
    · exact lt_of_lt_of_le (Nat.lt_succ_self _) (le_max_right _ _)
    · exact lt_of_lt_of_le (hb k hk2) (le_max_left _ _)

theorem WF_add_new (s : SplitContainer) (h : WF s) : WF s.add_new_document := by
  obtain ⟨hlen, hact, hnd, hb⟩ := h
  have hfresh : s.nextId ∉ s.allIds := fun hmem => lt_irrefl _ (hb _ hmem)
  have hperm : List.Perm s.add_new_document.allIds (s.nextId :: s.allIds) :=
    (all_documents_add_new_perm s hact).map Document.id
  refine ⟨?_, ?_, ?_, ?_⟩
  · show (modifyAt _ s.activePane s.panes).length = 1 ∨
      (modifyAt _ s.activePane s.panes).length = 2
    rw [modifyAt_length]
    exact hlen
  · show s.activePane < (modifyAt _ s.activePane s.panes).length
    rw [modifyAt_length]
    exact hact
  · exact hperm.nodup_iff.mpr (List.nodup_cons.mpr ⟨hfresh, hnd⟩)
  · intro k hk
    show k < s.nextId + 1
    rcases List.mem_cons.mp (hperm.subset hk) with rfl | hk2
    · exact Nat.lt_succ_self _
    · exact lt_of_lt_of_le (hb k hk2) (Nat.le_succ _)


theorem transfer_document_frame (s : SplitContainer) (d : Document) (i j : Nat) :
    (s.transfer_document d i j).panes.length = s.panes.length ∧
    (s.transfer_document d i j).activePane = s.activePane ∧
    (s.transfer_document d i j).nextId = s.nextId := by
  unfold SplitContainer.transfer_document
  split
  next sp tp hi hj =>
    split
    · refine ⟨?_, rfl, rfl⟩
      show (modifyAt _ j (modifyAt _ i s.panes)).length = s.panes.length
      rw [modifyAt_length, modifyAt_length]
    · exact ⟨rfl, rfl, rfl⟩
  next => exact ⟨rfl, rfl, rfl⟩

theorem transfer_all_documents_perm (s : SplitContainer) (d : Document) (i j : Nat) :
    List.Perm (s.transfer_document d i j).all_documents s.all_documents := by
  unfold SplitContainer.transfer_document
  split
  next sp tp hi hj =>
    by_cases hd : d ∈ sp.documents
    · rw [if_pos hd]
      obtain ⟨h1, hgi⟩ := List.get?_eq_some.mp hi
      have h2 : j < s.panes.length := (List.get?_eq_some.mp hj).1
      have h2' : j < (modifyAt (fun p => (p.remove_document d).2) i s.panes).length := by
        rw [modifyAt_length]
        exact h2
      have hdi : d ∈ (s.panes.get ⟨i, h1⟩).documents := by
        rw [hgi]
        exact hd
      have hrm : ((s.panes.get ⟨i, h1⟩).remove_document d).2.documents =
          (s.panes.get ⟨i, h1⟩).documents.erase d := by
        rw [hgi, Pane.remove_document, if_pos hd]
      have hA := flatten_modifyAt_append Pane.documents
        (fun p => p.add_document d) d
        (modifyAt (fun p => (p.remove_document d).2) i s.panes) j h2' rfl
      have hB := flatten_modifyAt_erase Pane.documents
        (fun p => (p.remove_document d).2) d s.panes i h1 hrm hdi
      exact hA.trans hB
    · rw [if_neg hd]
  next => exact List.Perm.refl _

theorem WF_transfer (s : SplitContainer) (d : Document) (i j : Nat)
    (h : WF s) : WF (s.transfer_document d i j) := by
  obtain ⟨hlen, hact, hnd, hb⟩ := h
  obtain ⟨hl, ha, hn⟩ := transfer_document_frame s d i j
  have hperm : List.Perm (s.transfer_document d i j).allIds s.allIds :=
    (transfer_all_documents_perm s d i j).map Document.id
  refine ⟨?_, ?_, ?_, ?_⟩
  · rw [hl]
    exact hlen
  · rw [ha, hl]
    exact hact
  · exact hperm.nodup_iff.mpr hnd
  · intro k hk
    rw [hn]
    exact hb k (hperm.subset hk)

theorem WF_merge (s : SplitContainer) (h : WF s) : WF s.merge_panes := by
  obtain ⟨panes, a, n⟩ := s
  obtain ⟨hlen, hact, hnd, hb⟩ := h
  rcases panes with - | ⟨p, - | ⟨q, - | ⟨r, rest⟩⟩⟩
  · exact ⟨hlen, hact, hnd, hb⟩
  · exact ⟨hlen, hact, hnd, hb⟩
  · have hmp : SplitContainer.merge_panes ⟨[p, q], a, n⟩ =
        ⟨[⟨p.documents ++ q.documents, p.activeIdx⟩], 0, n⟩ := rfl
    rw [hmp]
    have hnd2 := hnd
    rw [allIds_two] at hnd2
    refine ⟨Or.inl rfl, Nat.one_pos, ?_, ?_⟩
    · rw [allIds_one]
      exact hnd2
    · intro k hk
      rw [allIds_one] at hk
      apply hb
      rw [allIds_two]
      exact hk
  · exact ⟨hlen, hact, hnd, hb⟩

theorem WF_swap (s : SplitContainer) (h : WF s) : WF s.swap_panes := by
  obtain ⟨panes, a, n⟩ := s
  obtain ⟨hlen, hact, hnd, hb⟩ := h
  rcases panes with - | ⟨p, - | ⟨q, - | ⟨r, rest⟩⟩⟩
  · exact ⟨hlen, hact, hnd, hb⟩
  · exact ⟨hlen, hact, hnd, hb⟩
  · have hperm : List.Perm
        (SplitContainer.allIds ⟨[q, p], if a = 0 then 1 else 0, n⟩)
        (SplitContainer.allIds ⟨[p, q], a, n⟩) := by
      rw [allIds_two, allIds_two, List.map_append, List.map_append]
      exact List.perm_append_comm
    refine ⟨Or.inr rfl, ?_, hperm.nodup_iff.mpr hnd, ?_⟩
    · show (if a = 0 then 1 else 0) < 2
      split <;> omega
    · intro k hk
      exact hb k (hperm.subset hk)
  · exact ⟨hlen, hact, hnd, hb⟩

theorem WF_split (s : SplitContainer) (d : Document) (side : Side)
    (h : WF s) : WF (s.create_split d side) := by
  obtain ⟨panes, a, n⟩ := s
  obtain ⟨hlen, hact, hnd, hb⟩ := h
  unfold SplitContainer.create_split
  by_cases hg1 : 2 ≤ (panes : List Pane).length
  · rw [if_pos hg1]
    exact ⟨hlen, hact, hnd, hb⟩
  · rw [if_neg hg1]
    by_cases hg2 : SplitContainer.total_document_count ⟨panes, a, n⟩ < 2
    · rw [if_pos hg2]
      exact ⟨hlen, hact, hnd, hb⟩
    · rw [if_neg hg2]
      have hlen2 : panes.length = 1 ∨ panes.length = 2 := hlen
      have h1 : panes.length = 1 := by
        rcases hlen2 with h1 | h2
        · exact h1
        · omega
      obtain ⟨p, rfl⟩ := List.length_eq_one.mp h1
      cases hfo : findOwnerIdx d [p] with
      | none =>
        exact ⟨hlen, hact, hnd, hb⟩
      | some i =>
        have hd : d ∈ p.documents := by
          by_contra hd'
          simp [findOwnerIdx, hd'] at hfo
        have hi0 : i = 0 := by
          simp [findOwnerIdx, hd] at hfo
          omega
        subst hi0
        have hrm : (p.remove_document d).2.documents = p.documents.erase d := by
          rw [Pane.remove_document, if_pos hd]
        have hpe := List.perm_cons_erase hd
        have hnd1 : (p.documents.map Document.id).Nodup := by
          rw [allIds_one] at hnd
          exact hnd
        cases side with
        | left =>
          show WF ⟨[⟨[d], 0⟩, (p.remove_document d).2], 0, n⟩
          refine ⟨Or.inr rfl, by show (0 : Nat) < 2; omega, ?_, ?_⟩
          · rw [allIds_two, hrm]
            show (((d :: p.documents.erase d) : List Document).map Document.id).Nodup
            exact ((hpe.map Document.id).nodup_iff).mp hnd1
          · intro k hk
            rw [allIds_two, hrm] at hk
            have hk2 : k ∈ ((d :: p.documents.erase d).map Document.id) := hk
            apply hb
            rw [allIds_one]
            exact (hpe.map Document.id).symm.subset hk2
        | right =>
          show WF ⟨[(p.remove_document d).2, ⟨[d], 0⟩], 1, n⟩
          have hperm2 : List.Perm ((p.documents.erase d ++ [d]).map Document.id)
              (p.documents.map Document.id) := by
            rw [List.map_append]
            exact (List.perm_append_singleton _ _).trans
              ((hpe.map Document.id).symm)
          refine ⟨Or.inr rfl, by show (1 : Nat) < 2; omega, ?_, ?_⟩
          · rw [allIds_two, hrm]
            exact hperm2.nodup_iff.mpr hnd1
          · intro k hk
            rw [allIds_two, hrm] at hk
            apply hb
            rw [allIds_one]
            exact hperm2.subset hk

theorem WF_remove (s : SplitContainer) (d : Document) (h : WF s) :
    WF (s.remove_document d) := by
  obtain ⟨panes, a, n⟩ := s
  obtain ⟨hlen, hact, hnd, hb⟩ := h
  have hlen2 : panes.length = 1 ∨ panes.length = 2 := hlen
  unfold SplitContainer.remove_document
  rcases hlen2 with h1 | h2
  · obtain ⟨p, rfl⟩ := List.length_eq_one.mp h1
    cases hfo : findOwnerIdx d [p] with
    | none => exact ⟨hlen, hact, hnd, hb⟩
    | some i =>
      have hd : d ∈ p.documents := by
        by_contra hd'
        simp [findOwnerIdx, hd'] at hfo
      have hi0 : i = 0 := by
        simp [findOwnerIdx, hd] at hfo
        omega
      subst hi0
      have hrm : (p.remove_document d).2.documents = p.documents.erase d := by
        rw [Pane.remove_document, if_pos hd]
      have hnd1 : (p.documents.map Document.id).Nodup := by
        rw [allIds_one] at hnd
        exact hnd
      show WF (if ([(p.remove_document d).2] : List Pane).length = 2 ∧
          ((p.remove_document d).2).documents.isEmpty
        then ⟨[(p.remove_document d).2].eraseIdx 0, 0, n⟩
        else ⟨[(p.remove_document d).2], a, n⟩)
      rw [if_neg (by rintro ⟨hc, -⟩; simp at hc)]
      refine ⟨Or.inl rfl, hact, ?_, ?_⟩
      · rw [allIds_one, hrm]
        exact hnd1.sublist ((List.erase_sublist d p.documents).map Document.id)
      · intro k hk
        rw [allIds_one, hrm] at hk
        apply hb
        rw [allIds_one]
        exact ((List.erase_sublist d p.documents).map Document.id).subset hk
  · obtain ⟨p, q, rfl⟩ := List.length_eq_two.mp h2
    have hact2 : a < 2 := hact
    have hnd2 : ((p.documents ++ q.documents).map Document.id).Nodup := by
      rw [allIds_two] at hnd
      exact hnd
    cases hfo : findOwnerIdx d [p, q] with
    | none => exact ⟨hlen, hact, hnd, hb⟩
    | some i =>
      by_cases hdp : d ∈ p.documents
      · have hi0 : i = 0 := by
          simp [findOwnerIdx, hdp] at hfo
          omega
        subst hi0
        have hrm : (p.remove_document d).2.documents = p.documents.erase d := by
          rw [Pane.remove_document, if_pos hdp]
        show WF (if ([(p.remove_document d).2, q] : List Pane).length = 2 ∧
            ((p.remove_document d).2).documents.isEmpty
          then ⟨[(p.remove_document d).2, q].eraseIdx 0, 0, n⟩
          else ⟨[(p.remove_document d).2, q], a, n⟩)
        by_cases he : ((p.remove_document d).2).documents.isEmpty
        · rw [if_pos ⟨rfl, he⟩]
          show WF ⟨[q], 0, n⟩
          refine ⟨Or.inl rfl, by show (0 : Nat) < 1; omega, ?_, ?_⟩
          · rw [allIds_one]
            exact hnd2.sublist
              ((List.sublist_append_right p.documents q.documents).map Document.id)
          · intro k hk
            rw [allIds_one] at hk
            apply hb
            rw [allIds_two]
            exact ((List.sublist_append_right p.documents q.documents).map
              Document.id).subset hk
        · rw [if_neg (fun hcon => he hcon.2)]
          have hsub : List.Sublist (p.documents.erase d ++ q.documents)
              (p.documents ++ q.documents) :=
            (List.erase_sublist d p.documents).append (List.Sublist.refl q.documents)
          refine ⟨Or.inr rfl, hact2, ?_, ?_⟩
          · rw [allIds_two, hrm]
            exact hnd2.sublist (hsub.map Document.id)
          · intro k hk
            rw [allIds_two, hrm] at hk
            apply hb
            rw [allIds_two]
            exact (hsub.map Document.id).subset hk
      · by_cases hdq : d ∈ q.documents
        · have hi1 : i = 1 := by
            simp [findOwnerIdx, hdp, hdq] at hfo
            omega
          subst hi1
          have hrmq : (q.remove_document d).2.documents = q.documents.erase d := by
            rw [Pane.remove_document, if_pos hdq]
          show WF (if ([p, (q.remove_document d).2] : List Pane).length = 2 ∧
              ((q.remove_document d).2).documents.isEmpty
            then ⟨[p, (q.remove_document d).2].eraseIdx 1, 0, n⟩
            else ⟨[p, (q.remove_document d).2], a, n⟩)
          by_cases he : ((q.remove_document d).2).documents.isEmpty
          · rw [if_pos ⟨rfl, he⟩]
            show WF ⟨[p], 0, n⟩
            refine ⟨Or.inl rfl, by show (0 : Nat) < 1; omega, ?_, ?_⟩
            · rw [allIds_one]
              exact hnd2.sublist
                ((List.sublist_append_left p.documents q.documents).map Document.id)
            · intro k hk
              rw [allIds_one] at hk
              apply hb
              rw [allIds_two]
              exact ((List.sublist_append_left p.documents q.documents).map
                Document.id).subset hk
          · rw [if_neg (fun hcon => he hcon.2)]
            have hsub : List.Sublist (p.documents ++ q.documents.erase d)
                (p.documents ++ q.documents) :=
              (List.Sublist.refl p.documents).append (List.erase_sublist d q.documents)
            refine ⟨Or.inr rfl, hact2, ?_, ?_⟩
            · rw [allIds_two, hrmq]
              exact hnd2.sublist (hsub.map Document.id)
            · intro k hk
              rw [allIds_two, hrmq] at hk
              apply hb
              rw [allIds_two]
              exact (hsub.map Document.id).subset hk
        · exfalso
          simp [findOwnerIdx, hdp, hdq] at hfo

/-- One public SplitContainer operation, as an atomic transition.  The
add_document step requires the added Document to be a freshly created
object (its identity is not already owned), matching the data flow of the
spec: open file, Document created, added to the active Pane. -/
inductive Step : SplitContainer → SplitContainer → Prop where
  | add_document (s : SplitContainer) (d : Document) :
      d.id ∉ s.allIds → Step s (s.add_document d)
  | add_new_document (s : SplitContainer) : Step s s.add_new_document
  | create_split (s : SplitContainer) (d : Document) (side : Side) :
      Step s (s.create_split d side)
  | merge_panes (s : SplitContainer) : Step s s.merge_panes
  | transfer_document (s : SplitContainer) (d : Document) (i j : Nat) :
      Step s (s.transfer_document d i j)
  | swap_panes (s : SplitContainer) : Step s s.swap_panes
  | remove_document (s : SplitContainer) (d : Document) :
      Step s (s.remove_document d)

/-- SplitContainer states reachable from the initial state by any sequence
of the public operations. -/
inductive Reachable : SplitContainer → Prop where
  | init : Reachable SplitContainer.initial
  | step {s t : SplitContainer} : Reachable s → Step s t → Reachable t

theorem WF_initial : WF SplitContainer.initial := by
  refine ⟨Or.inl rfl, ?_, ?_, ?_⟩ <;> decide

theorem WF_step {s t : SplitContainer} (hst : Step s t) (h : WF s) : WF t := by
  cases hst with
  | add_document d hd => exact WF_add s d h hd
  | add_new_document => exact WF_add_new s h
  | create_split d side => exact WF_split s d side h
  | merge_panes => exact WF_merge s h
  | transfer_document d i j => exact WF_transfer s d i j h
  | swap_panes => exact WF_swap s h
  | remove_document d => exact WF_remove s d h

/-- C3: in every state reachable from the initial state (one Pane holding
one empty Document) by any sequence of the public operations, the number
of Panes is exactly 1 or 2, and the flattened identity list has no
duplicates, so every owned Document belongs to exactly one Pane's sequence:
it appears in no Pane twice and in at most one Pane. -/
theorem container_invariant (s : SplitContainer) (h : Reachable s) :
    (s.panes.length = 1 ∨ s.panes.length = 2) ∧ s.allIds.Nodup := by
  have hwf : WF s := by
    induction h with
    | init => exact WF_initial
    | step hr hst ih => exact WF_step hst ih
  exact ⟨hwf.1, hwf.2.2.1⟩

/-- Witness for C3 at a concrete reachable state: the initial container
after add_new_document followed by create_split. -/
theorem container_invariant_witness :
    (((SplitContainer.initial.add_new_document.create_split
        (Document.create 0 "" none) Side.right).panes.length = 1 ∨
      (SplitContainer.initial.add_new_document.create_split
        (Document.create 0 "" none) Side.right).panes.length = 2) ∧
     (SplitContainer.initial.add_new_document.create_split
        (Document.create 0 "" none) Side.right).allIds.Nodup) :=
  container_invariant _
    (Reachable.step (Reachable.step Reachable.init
        (Step.add_new_document SplitContainer.initial))
      (Step.create_split SplitContainer.initial.add_new_document
        (Document.create 0 "" none) Side.right))
